import Mathlib

/-!
Verification development for the anytype-mcp server (Rust).

The development shallowly embeds the core of the repository:
`src/openapi/parser.rs` (OpenAPI operation extraction and schema conversion),
`src/client/http_client.rs` (request building, query/body encoding, multipart
construction, response normalization) and the catalog construction of
`src/server/json_rpc_server.rs` / `src/server/mcp_server.rs`.

Modelling conventions:
- `serde_json::Value` is embedded as the inductive `Json` below; JSON numbers
  are modelled as integers (every number appearing in the properties under
  study is integral). JSON objects are association lists; key order is not
  semantically meaningful and all statements go through key lookup.
- External crates (`reqwest`'s transport, the `base64` decoder, the
  filesystem) are abstracted: the transport is cut at the "request plan"
  boundary, and base64 decoding / file reading are explicit function
  parameters, universally quantified in the theorems.
- Machine strings are Lean `String`s; the Rust `str` helpers used by the code
  (`trim_matches`, `trim_end_matches`, `replace`, `contains`, `starts_with`)
  are re-implemented below on character lists.
-/

/-- Embedding of `serde_json::Value`. Numbers are modelled as integers. -/
inductive Json where
  | null
  | bool (b : Bool)
  | num (n : Int)
  | str (s : String)
  | arr (elems : List Json)
  | obj (kvs : List (String × Json))

/-- Lookup in an association list by exact string equality (models
`serde_json::Map::get` / `HashMap::get`). -/
def lookupAssoc {α : Type} : List (String × α) → String → Option α
  | [], _ => none
  | (k0, v0) :: rest, k => if k0 = k then some v0 else lookupAssoc rest k

/-- Insert-or-overwrite in an association list (models `HashMap::insert` /
`serde_json` map index-assignment: an existing key is updated in place, a new
key is appended). -/
def setAssoc {α : Type} : List (String × α) → String → α → List (String × α)
  | [], k, v => [(k, v)]
  | (k0, v0) :: rest, k, v =>
      if k0 = k then (k0, v) :: rest else (k0, v0) :: setAssoc rest k v

/-- Key lookup on a JSON value: `some` only on objects containing the key. -/
def Json.getKey? (v : Json) (k : String) : Option Json :=
  match v with
  | .obj kvs => lookupAssoc kvs k
  | _ => none

/-- Index-assignment `value[key] = x` on a JSON object (the code only ever
applies it to objects; on any other value it is the identity here). -/
def Json.setKey (v : Json) (k : String) (x : Json) : Json :=
  match v with
  | .obj kvs => .obj (setAssoc kvs k x)
  | other => other

/-- View of `Value::as_object`. -/
def Json.asObject : Json → Option (List (String × Json))
  | .obj kvs => some kvs
  | _ => none

/-- View of `Value::as_str`. -/
def Json.asStr : Json → Option String
  | .str s => some s
  | _ => none

/-- Hexadecimal digit (lower case), used for JSON control-character escapes. -/
def hexDigitChar (n : Nat) : Char :=
  if n < 10 then Char.ofNat (48 + n) else Char.ofNat (87 + n)

/-- Escape one character the way `serde_json` does when serializing a JSON
string. -/
def escapeJsonChar (c : Char) : String :=
  if c = '"' then "\\\""
  else if c = '\\' then "\\\\"
  else if c = '\n' then "\\n"
  else if c = '\r' then "\\r"
  else if c = '\t' then "\\t"
  else if c = Char.ofNat 8 then "\\b"
  else if c = Char.ofNat 12 then "\\f"
  else if c.toNat < 32 then
    "\\u00" ++ String.singleton (hexDigitChar (c.toNat / 16)) ++
      String.singleton (hexDigitChar (c.toNat % 16))
  else String.singleton c

/-- Escape a whole string for JSON serialization. -/
def escapeJsonString (s : String) : String :=
  s.toList.foldl (fun acc c => acc ++ escapeJsonChar c) ""

mutual
/-- Compact JSON serialization, modelling `serde_json::Value::to_string()`. -/
def Json.serialize : Json → String
  | .null => "null"
  | .bool true => "true"
  | .bool false => "false"
  | .num n => ToString.toString n
  | .str s => "\"" ++ escapeJsonString s ++ "\""
  | .arr xs => "[" ++ serializeElems xs ++ "]"
  | .obj kvs => "\x7b" ++ serializeMembers kvs ++ "\x7d"

/-- Comma-separated serialization of array elements. -/
def serializeElems : List Json → String
  | [] => ""
  | x :: xs => Json.serialize x ++ (if xs.isEmpty then "" else "," ++ serializeElems xs)

/-- Comma-separated serialization of object members. -/
def serializeMembers : List (String × Json) → String
  | [] => ""
  | (k, v) :: xs =>
      "\"" ++ escapeJsonString k ++ "\":" ++ Json.serialize v ++
        (if xs.isEmpty then "" else "," ++ serializeMembers xs)
end

/-- Rust `str::trim_matches(c)`: remove every leading and every trailing
occurrence of the character. -/
def trimMatchesChar (c : Char) (s : String) : String :=
  String.mk (((s.toList.dropWhile (· = c)).reverse.dropWhile (· = c)).reverse)

/-- Rust `str::trim_end_matches(c)`: remove every trailing occurrence. -/
def trimEndMatchesChar (c : Char) (s : String) : String :=
  String.mk ((s.toList.reverse.dropWhile (· = c)).reverse)

/-- Rust `str::starts_with('_')` on an argument key. -/
def underscoreFirst (k : String) : Bool :=
  match k.toList with
  | [] => false
  | c :: _ => c = '_'

/-- Rust `str::starts_with(pat)` for a string pattern. -/
def strStartsWith (s pat : String) : Bool :=
  pat.toList.isPrefixOf s.toList

/-- Rust `str::to_uppercase` on ASCII method names (character-wise map). -/
def strToUpper (s : String) : String :=
  String.mk (s.toList.map Char.toUpper)

/-- Rust `str::to_lowercase` on ASCII method names (character-wise map). -/
def strToLower (s : String) : String :=
  String.mk (s.toList.map Char.toLower)

/-- Rust `str::contains(pat)` for a string pattern. -/
def strContainsSub (s pat : String) : Bool :=
  s.toList.tails.any (fun t => pat.toList.isPrefixOf t)

/-- Fueled core of Rust `str::replace`: replace non-overlapping occurrences of
`pat` left to right. One unit of fuel is spent per character examined, so fuel
equal to the list length is always sufficient. -/
def replaceCharsFuel (pat rep : List Char) : Nat → List Char → List Char
  | _, [] => []
  | 0, s => s
  | fuel + 1, c :: cs =>
      if pat ≠ [] ∧ pat.isPrefixOf (c :: cs) then
        rep ++ replaceCharsFuel pat rep fuel ((c :: cs).drop pat.length)
      else
        c :: replaceCharsFuel pat rep fuel cs

/-- Rust `str::replace(pat, rep)`. -/
def strReplace (s pat rep : String) : String :=
  String.mk (replaceCharsFuel pat.toList rep.toList s.toList.length s.toList)

/-- UTF-8 bytes of a string, modelling Rust `str::as_bytes`. -/
def utf8Bytes (s : String) : List Nat :=
  s.toUTF8.toList.map (fun b => b.toNat)

/-! JSON parsing, modelling `serde_json::from_str` on the fragment of JSON the
system consumes (objects, arrays, strings with the standard escapes, integral
numbers, booleans, null). A fuel parameter makes the recursion structural;
the initial fuel is generous enough for any input of the given length.
Non-integral numbers are outside the model (no claim involves them). -/

/-- JSON whitespace. -/
def isJsonWs (c : Char) : Bool :=
  c = ' ' || c = '\t' || c = '\n' || c = '\r'

/-- Skip leading JSON whitespace. -/
def skipWs (cs : List Char) : List Char :=
  cs.dropWhile isJsonWs

/-- Value of one hexadecimal digit. -/
def hexVal (c : Char) : Option Nat :=
  if '0' ≤ c ∧ c ≤ '9' then some (c.toNat - 48)
  else if 'a' ≤ c ∧ c ≤ 'f' then some (c.toNat - 87)
  else if 'A' ≤ c ∧ c ≤ 'F' then some (c.toNat - 55)
  else none

/-- Parse the digits of a natural number, returning it with the rest. -/
def parseDigits : List Char → Nat → Option (Nat × List Char)
  | [], acc => some (acc, [])
  | c :: cs, acc =>
      if c.isDigit then
        match parseDigits cs (acc * 10 + (c.toNat - 48)) with
        | some r => some r
        | none => none
      else some (acc, c :: cs)

/-- Parse a JSON number (integral only; a fractional or exponent part makes
the parse fail in this model). -/
def parseNumber (cs : List Char) : Option (Json × List Char) :=
  match cs with
  | '-' :: c :: rest =>
      if c.isDigit then
        match parseDigits (c :: rest) 0 with
        | some (n, rest2) =>
            match rest2 with
            | d :: _ => if d = '.' ∨ d = 'e' ∨ d = 'E' then none else some (.num (-(n : Int)), rest2)
            | [] => some (.num (-(n : Int)), [])
        | none => none
      else none
  | c :: rest =>
      if c.isDigit then
        match parseDigits (c :: rest) 0 with
        | some (n, rest2) =>
            match rest2 with
            | d :: _ => if d = '.' ∨ d = 'e' ∨ d = 'E' then none else some (.num (n : Int), rest2)
            | [] => some (.num (n : Int), [])
        | none => none
      else none
  | [] => none

/-- Parse the remainder of a JSON string literal (after the opening quote). -/
def parseStringRest : Nat → List Char → Option (String × List Char)
  | 0, _ => none
  | _ + 1, [] => none
  | fuel + 1, c :: cs =>
      if c = '"' then some ("", cs)
      else if c = '\\' then
        match cs with
        | [] => none
        | e :: cs2 =>
            let esc : Option (String × List Char) :=
              if e = '"' then some ("\"", cs2)
              else if e = '\\' then some ("\\", cs2)
              else if e = '/' then some ("/", cs2)
              else if e = 'n' then some ("\n", cs2)
              else if e = 't' then some ("\t", cs2)
              else if e = 'r' then some ("\r", cs2)
              else if e = 'b' then some (String.singleton (Char.ofNat 8), cs2)
              else if e = 'f' then some (String.singleton (Char.ofNat 12), cs2)
              else if e = 'u' then
                match cs2 with
                | h1 :: h2 :: h3 :: h4 :: cs3 =>
                    match hexVal h1, hexVal h2, hexVal h3, hexVal h4 with
                    | some a, some b, some c3, some d =>
                        some (String.singleton (Char.ofNat (((a * 16 + b) * 16 + c3) * 16 + d)), cs3)
                    | _, _, _, _ => none
                | _ => none
              else none
            match esc with
            | some (piece, cs3) =>
                match parseStringRest fuel cs3 with
                | some (s, rest) => some (piece ++ s, rest)
                | none => none
            | none => none
      else
        match parseStringRest fuel cs with
        | some (s, rest) => some (String.singleton c ++ s, rest)
        | none => none

mutual
/-- Parse one JSON value. -/
def parseValue : Nat → List Char → Option (Json × List Char)
  | 0, _ => none
  | fuel + 1, cs =>
      match skipWs cs with
      | [] => none
      | 'n' :: 'u' :: 'l' :: 'l' :: rest => some (.null, rest)
      | 't' :: 'r' :: 'u' :: 'e' :: rest => some (.bool true, rest)
      | 'f' :: 'a' :: 'l' :: 's' :: 'e' :: rest => some (.bool false, rest)
      | '"' :: rest =>
          match parseStringRest (fuel + 1) rest with
          | some (s, r) => some (.str s, r)
          | none => none
      | '[' :: rest =>
          (match skipWs rest with
           | ']' :: r2 => some (.arr [], r2)
           | other => match parseElems fuel other with
               | some (xs, r2) => some (.arr xs, r2)
               | none => none)
      | '\x7b' :: rest =>
          (match skipWs rest with
           | '\x7d' :: r2 => some (.obj [], r2)
           | other => match parseMembers fuel other with
               | some (kvs, r2) => some (.obj kvs, r2)
               | none => none)
      | other => parseNumber other

/-- Parse one or more comma-separated array elements, consuming the closing
bracket. -/
def parseElems : Nat → List Char → Option (List Json × List Char)
  | 0, _ => none
  | fuel + 1, cs =>
      match parseValue fuel cs with
      | some (v, rest) =>
          (match skipWs rest with
           | ',' :: r2 => match parseElems fuel r2 with
               | some (xs, r3) => some (v :: xs, r3)
               | none => none
           | ']' :: r2 => some ([v], r2)
           | _ => none)
      | none => none

/-- Parse one or more comma-separated object members, consuming the closing
brace. -/
def parseMembers : Nat → List Char → Option (List (String × Json) × List Char)
  | 0, _ => none
  | fuel + 1, cs =>
      match skipWs cs with
      | '"' :: rest =>
          (match parseStringRest (fuel + 1) rest with
           | some (k, r1) =>
               (match skipWs r1 with
                | ':' :: r2 =>
                    (match parseValue fuel r2 with
                     | some (v, r3) =>
                         (match skipWs r3 with
                          | ',' :: r4 => match parseMembers fuel r4 with
                              | some (kvs, r5) => some ((k, v) :: kvs, r5)
                              | none => none
                          | '\x7d' :: r4 => some ([(k, v)], r4)
                          | _ => none)
                     | none => none)
                | _ => none)
           | none => none)
      | _ => none
end

/-- Parse a complete JSON document, requiring only whitespace after the value
(models `serde_json::from_str::<Value>`). -/
def parseJsonText (s : String) : Option Json :=
  match parseValue (4 * s.toList.length + 16) s.toList with
  | some (v, rest) => if (skipWs rest).isEmpty then some v else none
  | none => none

/-! OpenAPI data model, embedding the fragment of the `openapiv3` crate that
`src/openapi/parser.rs` reads. -/

/-- Embedding of `openapiv3::VariantOrUnknownOrEmpty`. -/
inductive VariantOrUnknownOrEmpty (α : Type) where
  | item (a : α)
  | unknown (s : String)
  | empty

/-- Embedding of `openapiv3::StringFormat`. -/
inductive StringFormat where
  | date | dateTime | password | byte | binary

/-- Rust `format!("\x7b:?\x7d", fmt)` (the `Debug` representation) on a string
format, which is what `convert_schema` actually emits. -/
def StringFormat.debugStr : StringFormat → String
  | .date => "Date"
  | .dateTime => "DateTime"
  | .password => "Password"
  | .byte => "Byte"
  | .binary => "Binary"

/-- Serialization name of a string format as it appears in the source OpenAPI
document (the serde rename consumed when parsing the document). -/
def StringFormat.sourceStr : StringFormat → String
  | .date => "date"
  | .dateTime => "date-time"
  | .password => "password"
  | .byte => "byte"
  | .binary => "binary"

/-- Embedding of `openapiv3::NumberFormat`. -/
inductive NumberFormat where
  | float | double

/-- Debug representation of a number format. -/
def NumberFormat.debugStr : NumberFormat → String
  | .float => "Float"
  | .double => "Double"

/-- Embedding of `openapiv3::IntegerFormat`. -/
inductive IntegerFormat where
  | int32 | int64

/-- Debug representation of an integer format. -/
def IntegerFormat.debugStr : IntegerFormat → String
  | .int32 => "Int32"
  | .int64 => "Int64"

/-- The `schema_data` fields read by the converter (`title`, `description`).
The remaining `SchemaData` fields of the crate are never read by the code. -/
structure SchemaData where
  title : Option String
  description : Option String

mutual
/-- Embedding of `openapiv3::Schema`: schema metadata plus a schema kind. -/
inductive Schema where
  | mk (data : SchemaData) (kind : SchemaKind)

/-- Embedding of `openapiv3::SchemaKind` with `Type(...)` inlined: the six
concrete types, the three union kinds, and `anyOther` covering the remaining
kinds (`Any`, `Not`) that the code's wildcard arm handles. Only the fields
read by `convert_schema` are carried. -/
inductive SchemaKind where
  | tyString (format : VariantOrUnknownOrEmpty StringFormat) (enumeration : List (Option String))
  | tyNumber (format : VariantOrUnknownOrEmpty NumberFormat)
  | tyInteger (format : VariantOrUnknownOrEmpty IntegerFormat)
  | tyObject (properties : List (String × SchemaOrRef)) (required : List String)
  | tyArray (items : Option SchemaOrRef)
  | tyBoolean
  | oneOf (alts : List SchemaOrRef)
  | allOf (alts : List SchemaOrRef)
  | anyOf (alts : List SchemaOrRef)
  | anyOther

/-- Embedding of `openapiv3::ReferenceOr<Schema>` (boxed or not: the code
treats both identically). -/
inductive SchemaOrRef where
  | item (s : Schema)
  | ref (reference : String)
end

/-- Projection of the schema metadata. -/
def Schema.data : Schema → SchemaData
  | .mk d _ => d

/-- Projection of the schema kind. -/
def Schema.kind : Schema → SchemaKind
  | .mk _ k => k

/-- Error type embedding `AnytypeMcpError` (only the variants reachable from
the embedded code; the non-2xx tool-execution error keeps its status code and
body text as structured fields rather than a formatted message). -/
inductive McpError where
  | config (msg : String)
  | validation (msg : String)
  | toolExecution (status : Nat) (body : String)
  | jsonError
  | io

/-- The tail of `convert_schema`: add `title` and `description` from the
schema metadata when present, after the type-specific fields. -/
def apply_meta (data : SchemaData) (js : Json) : Json :=
  let js1 := match data.title with
    | some t => js.setKey "title" (.str t)
    | none => js
  match data.description with
  | some d => js1.setKey "description" (.str d)
  | none => js1

mutual
/-- Embedding of `OpenApiParser::convert_schema`. The match on
`schema.schema_kind` is split into `convert_kind`; title and description are
added afterwards exactly as in the source. -/
def convert_schema (s : Schema) : Except McpError Json :=
  match s with
  | .mk data kind =>
      match convert_kind kind with
      | .ok js => .ok (apply_meta data js)
      | .error e => .error e

/-- Body of `convert_schema`'s match on the schema kind, starting from the
empty object `json!(\x7b\x7d)` and assigning keys exactly as the source does. -/
def convert_kind (k : SchemaKind) : Except McpError Json :=
  match k with
  | .tyString format enumeration =>
      let a := (Json.obj []).setKey "type" (.str "string")
      let b := match format with
        | .item f => a.setKey "format" (.str f.debugStr)
        | _ => a
      let c :=
        if enumeration.isEmpty then b
        else
          let enum_values := enumeration.filterMap id
          if enum_values.isEmpty then b
          else b.setKey "enum" (.arr (enum_values.map Json.str))
      .ok c
  | .tyNumber format =>
      let a := (Json.obj []).setKey "type" (.str "number")
      let b := match format with
        | .item f => a.setKey "format" (.str f.debugStr)
        | _ => a
      .ok b
  | .tyInteger format =>
      let a := (Json.obj []).setKey "type" (.str "integer")
      let b := match format with
        | .item f => a.setKey "format" (.str f.debugStr)
        | _ => a
      .ok b
  | .tyObject properties required =>
      let a := (Json.obj []).setKey "type" (.str "object")
      (match (if properties.isEmpty then .ok a else
          match convert_props properties with
          | .ok ps => .ok (a.setKey "properties" (.obj ps))
          | .error e => .error e : Except McpError Json) with
       | .ok b =>
           .ok (if required.isEmpty then b else b.setKey "required" (.arr (required.map Json.str)))
       | .error e => .error e)
  | .tyArray items =>
      let a := (Json.obj []).setKey "type" (.str "array")
      (match items with
       | some iref =>
           (match convert_schema_or_ref iref with
            | .ok iv => .ok (a.setKey "items" iv)
            | .error e => .error e)
       | none => .ok a)
  | .tyBoolean => .ok ((Json.obj []).setKey "type" (.str "boolean"))
  | .oneOf alts =>
      (match convert_list alts with
       | .ok vs => .ok ((Json.obj []).setKey "oneOf" (.arr vs))
       | .error e => .error e)
  | .allOf alts =>
      (match convert_list alts with
       | .ok vs => .ok ((Json.obj []).setKey "allOf" (.arr vs))
       | .error e => .error e)
  | .anyOf alts =>
      (match convert_list alts with
       | .ok vs => .ok ((Json.obj []).setKey "anyOf" (.arr vs))
       | .error e => .error e)
  | .anyOther => .ok ((Json.obj []).setKey "type" (.str "object"))

/-- The property-conversion loop of the `Type::Object` arm (each property goes
through `convert_boxed_schema_or_ref`). -/
def convert_props : List (String × SchemaOrRef) → Except McpError (List (String × Json))
  | [] => .ok []
  | (k, sr) :: rest =>
      match convert_schema_or_ref sr with
      | .ok v =>
          (match convert_props rest with
           | .ok tail => .ok ((k, v) :: tail)
           | .error e => .error e)
      | .error e => .error e

/-- The member-conversion loop of the `oneOf`/`allOf`/`anyOf` arms. -/
def convert_list : List SchemaOrRef → Except McpError (List Json)
  | [] => .ok []
  | sr :: rest =>
      match convert_schema_or_ref sr with
      | .ok v =>
          (match convert_list rest with
           | .ok tail => .ok (v :: tail)
           | .error e => .error e)
      | .error e => .error e

/-- Embedding of `OpenApiParser::convert_schema_or_ref` (and of
`convert_boxed_schema_or_ref`, whose body is identical): an unresolved
reference degrades to the generic object schema. -/
def convert_schema_or_ref : SchemaOrRef → Except McpError Json
  | .item s => convert_schema s
  | .ref _ => .ok (.obj [("type", .str "object")])
end

/-- Embedding of `openapiv3::ReferenceOr` for non-schema payloads. -/
inductive RefOr (α : Type) where
  | item (a : α)
  | ref (reference : String)

/-- Parameter location (`Parameter::Query/Path/Header/Cookie`); the code reads
only `parameter_data_ref()`, never the location. -/
inductive ParameterLocation where
  | query | path | header | cookie

/-- Embedding of `openapiv3::ParameterSchemaOrContent`. -/
inductive ParameterSchemaOrContent where
  | schema (sref : SchemaOrRef)
  | content (media : List (String × Option SchemaOrRef))

/-- The fields of `openapiv3::ParameterData` read by the code. -/
structure ParameterData where
  name : String
  required : Bool
  format : ParameterSchemaOrContent

/-- Embedding of `openapiv3::Parameter`. -/
structure Parameter where
  location : ParameterLocation
  data : ParameterData

/-- Embedding of `openapiv3::MediaType` (only the `schema` field is read). -/
structure MediaType where
  schema : Option SchemaOrRef

/-- Embedding of `openapiv3::RequestBody` (fields read: `content`,
`required`). -/
structure RequestBody where
  content : List (String × MediaType)
  required : Bool

/-- Embedding of `openapiv3::Operation` (fields read by the code). -/
structure Operation where
  operationId : Option String
  description : Option String
  summary : Option String
  parameters : List (RefOr Parameter)
  requestBody : Option (RefOr RequestBody)

/-- Embedding of `openapiv3::PathItem` (the five methods the code reads). -/
structure PathItem where
  get : Option Operation
  post : Option Operation
  put : Option Operation
  delete : Option Operation
  patch : Option Operation

/-- Embedding of `McpTool` from `src/openapi/parser.rs`. -/
structure McpTool where
  name : String
  description : Option String
  input_schema : Json
  method : String
  path : String
  operation_id : String

/-- Embedding of `OpenApiParser::process_parameter`'s content branch: the
first media entry carrying a schema wins; with none, the fallback is the
string schema. -/
def content_first : List (String × Option SchemaOrRef) → Except McpError Json
  | [] => .ok (.obj [("type", .str "string")])
  | (_, some sref) :: _ => convert_schema_or_ref sref
  | (_, none) :: rest => content_first rest

/-- Embedding of `OpenApiParser::process_parameter`. -/
def process_parameter (param : Parameter) : Except McpError Json :=
  match param.data.format with
  | .schema sref => convert_schema_or_ref sref
  | .content media => content_first media

/-- The parameter loop of `process_operation`: successfully processed item
parameters are inserted into `properties`, and required ones are appended to
`required`; references are logged and skipped. -/
def param_fold : List (RefOr Parameter) → List (String × Json) × List String →
    List (String × Json) × List String
  | [], acc => acc
  | .item p :: rest, (props, req) =>
      (match process_parameter p with
       | .ok schema =>
           param_fold rest
             (setAssoc props p.data.name schema,
              if p.data.required then req ++ [p.data.name] else req)
       | .error _ => param_fold rest (props, req))
  | .ref _ :: rest, acc => param_fold rest acc

/-- The request-body step of `process_operation`: a JSON media-typed schema is
converted and inserted under the synthetic property name `body`. -/
def body_step (rb : Option (RefOr RequestBody)) (acc : List (String × Json) × List String) :
    List (String × Json) × List String :=
  match rb with
  | some (.item request_body) =>
      (match lookupAssoc request_body.content "application/json" with
       | some media =>
           (match media.schema with
            | some sref =>
                (match convert_schema_or_ref sref with
                 | .ok schema =>
                     (setAssoc acc.1 "body" schema,
                      if request_body.required then acc.2 ++ ["body"] else acc.2)
                 | .error _ => acc)
            | none => acc)
       | none => acc)
  | some (.ref _) => acc
  | none => acc

/-- Embedding of `OpenApiParser::process_operation`. The initial placeholder
`input_schema` is immediately overwritten, so only the final assignment is
modelled. -/
def process_operation (path method : String) (operation : Operation) : McpTool :=
  let default_id :=
    strToLower method ++ "_" ++ String.mk (path.toList.map (fun c => if c = '/' then '_' else c))
  let operation_id := (operation.operationId).getD default_id
  let pr := body_step operation.requestBody (param_fold operation.parameters ([], []))
  { name := operation_id
    description := (operation.description).orElse (fun _ => operation.summary)
    input_schema := .obj [("type", .str "object"), ("properties", .obj pr.1),
      ("required", .arr (pr.2.map Json.str))]
    method := method
    path := path
    operation_id := operation_id }

/-- Per-path step of `convert_to_tools`: the five methods are processed in the
source order GET, POST, PUT, DELETE, PATCH (`process_operation` always
succeeds, so the `if let Ok` always pushes). -/
def path_tools (path : String) (pi : PathItem) : List McpTool :=
  (match pi.get with | some op => [process_operation path "GET" op] | none => []) ++
  (match pi.post with | some op => [process_operation path "POST" op] | none => []) ++
  (match pi.put with | some op => [process_operation path "PUT" op] | none => []) ++
  (match pi.delete with | some op => [process_operation path "DELETE" op] | none => []) ++
  (match pi.patch with | some op => [process_operation path "PATCH" op] | none => [])

/-- Embedding of `OpenApiParser::convert_to_tools`: walk the path table in
order, skipping path-item references. -/
def convert_to_tools (paths : List (String × RefOr PathItem)) : List McpTool :=
  paths.foldl
    (fun tools entry =>
      match entry.2 with
      | .item pi => tools ++ path_tools entry.1 pi
      | .ref _ => tools)
    []

/-! HTTP client embedding (`src/client/http_client.rs`). The `reqwest`
request builder is embedded as an explicit request plan; the transport
(`send`) is outside the model. The base64 decoder of the `base64` crate and
the filesystem (`Path::exists` + `tokio::fs::read`) are abstracted as
function parameters `b64` (returns `none` on a decode error) and `fileRead`
(returns `none` when the path does not exist). -/

/-- One part of a multipart form: the single file part (named `file`, with
fixed filename `upload` and content type `application/octet-stream` in the
source), or a plain text field. -/
inductive FormPart where
  | filePart (bytes : List Nat)
  | textPart (key value : String)

/-- The request body chosen by `add_request_body`. -/
inductive Body where
  | jsonBody (v : Json)
  | multipartBody (parts : List FormPart)

/-- A fully built request plan: method, URL with path parameters substituted,
accumulated query pairs, and the body, mirroring what `execute_tool` hands to
`send`. Default headers are not claim-relevant and are omitted. -/
structure RequestPlan where
  method : String
  url : String
  query : List (String × String)
  body : Option Body

/-- Uniform wire stringification used by `build_url`, `add_query_params` and
the multipart text fields: strings pass through, every other value is its
compact JSON text with all leading and trailing quote characters trimmed. -/
def value_str (v : Json) : String :=
  match v with
  | .str s => s
  | other => trimMatchesChar '"' (Json.serialize other)

/-- Embedding of `HttpClient::build_url` up to `Url::parse`: the base URL is
trimmed of trailing slashes, the path is appended, and every argument whose
`\x7bkey\x7d` placeholder occurs in the URL is substituted. `Url::parse`
itself belongs to the external `url` crate and is modelled as accepting the
string verbatim. -/
def build_url (base_url path : String) (params : Json) : String :=
  let url0 := trimEndMatchesChar '/' base_url ++ path
  match params.asObject with
  | some kvs =>
      kvs.foldl
        (fun u kv =>
          let placeholder := "\x7b" ++ kv.1 ++ "\x7d"
          if strContainsSub u placeholder then strReplace u placeholder (value_str kv.2)
          else u)
        url0
  | none => url0

/-- Loop body of `HttpClient::add_query_params`: a key not starting with `_`
is appended as a query pair (strings verbatim, `null` skipped, other values
via their trimmed JSON text); underscore keys are skipped. -/
def query_step (acc : List (String × String)) (kv : String × Json) :
    List (String × String) :=
  if ¬ underscoreFirst kv.1 then
    match kv.2 with
    | .str s => acc ++ [(kv.1, s)]
    | .null => acc
    | other => acc ++ [(kv.1, trimMatchesChar '"' (Json.serialize other))]
  else acc

/-- Embedding of `HttpClient::add_query_params`: every argument key not
starting with `_` becomes a query pair; `null` values are skipped. -/
def add_query_params (params : Json) : List (String × String) :=
  match params.asObject with
  | some kvs => kvs.foldl query_step []
  | none => []

/-- The `retain` of `add_request_body`: drop every top-level key starting with
`_` from an object; any other value is left unchanged. -/
def strip_internal (params : Json) : Json :=
  match params with
  | .obj kvs => .obj (kvs.filter (fun kv => ¬ underscoreFirst kv.1))
  | other => other

/-- Split a character list at the first comma (Rust `str::find(',')` plus the
two slices around it), `none` when no comma occurs. -/
def breakAtComma : List Char → Option (List Char × List Char)
  | [] => none
  | c :: cs =>
      if c = ',' then some ([], cs)
      else
        match breakAtComma cs with
        | some (a, b) => some (c :: a, b)
        | none => none

/-- Embedding of `HttpClient::decode_data_url`. -/
def decode_data_url (b64 : String → Option (List Nat)) (data_url : String) :
    Except McpError (List Nat) :=
  match breakAtComma data_url.toList with
  | some (front, back) =>
      if strContainsSub (String.mk front) "base64" then
        match b64 (String.mk back) with
        | some bytes => .ok bytes
        | none => .error (.validation "Invalid base64 data")
      else .ok (utf8Bytes (String.mk back))
  | none => .error (.validation "Invalid data URL format")

/-- Embedding of the `_file_upload` decode chain in `add_multipart_body`:
data URL, else existing file, else raw base64. -/
def decode_upload (fileRead b64 : String → Option (List Nat)) (file_data : String) :
    Except McpError (List Nat) :=
  if strStartsWith file_data "data:" then decode_data_url b64 file_data
  else
    match fileRead file_data with
    | some bytes => .ok bytes
    | none =>
        match b64 file_data with
        | some bytes => .ok bytes
        | none => .error (.validation "Invalid file data")

/-- The per-entry loop of `add_multipart_body`: a string-valued `_file_upload`
becomes the file part (decode errors propagate), a non-string `_file_upload`
is silently ignored, any other non-underscore key becomes a text field, and
remaining underscore keys are skipped. -/
def multipart_parts (fileRead b64 : String → Option (List Nat)) :
    List (String × Json) → Except McpError (List FormPart)
  | [] => .ok []
  | (k, v) :: rest =>
      if k = "_file_upload" then
        match v.asStr with
        | some file_data =>
            (match decode_upload fileRead b64 file_data with
             | .ok bytes =>
                 (match multipart_parts fileRead b64 rest with
                  | .ok ps => .ok (.filePart bytes :: ps)
                  | .error e => .error e)
             | .error e => .error e)
        | none => multipart_parts fileRead b64 rest
      else if ¬ underscoreFirst k then
        (match multipart_parts fileRead b64 rest with
         | .ok ps => .ok (.textPart k (value_str v) :: ps)
         | .error e => .error e)
      else multipart_parts fileRead b64 rest

/-- Embedding of `HttpClient::add_multipart_body`. -/
def add_multipart_body (fileRead b64 : String → Option (List Nat)) (params : Json) :
    Except McpError Body :=
  match params.asObject with
  | some kvs =>
      (match multipart_parts fileRead b64 kvs with
       | .ok parts => .ok (.multipartBody parts)
       | .error e => .error e)
  | none => .ok (.multipartBody [])

/-- Embedding of `HttpClient::add_request_body`: arguments containing the
reserved `_file_upload` key build a multipart form; otherwise the body is the
argument object with every underscore-prefixed key removed, serialized as
JSON. -/
def add_request_body (fileRead b64 : String → Option (List Nat)) (params : Json) :
    Except McpError Body :=
  match params.asObject with
  | some kvs =>
      if kvs.any (fun kv => kv.1 = "_file_upload") then
        add_multipart_body fileRead b64 params
      else .ok (.jsonBody (strip_internal params))
  | none => .ok (.jsonBody (strip_internal params))

/-- Embedding of `HttpClient::parse_method` (`Method::from_str`): the standard
verbs parse; extraction only ever emits GET/POST/PUT/DELETE/PATCH. -/
def parse_method (method : String) : Except McpError String :=
  if method ∈ ["GET", "POST", "PUT", "PATCH", "DELETE", "HEAD", "OPTIONS", "TRACE", "CONNECT"]
  then .ok method
  else .error (.config "Invalid HTTP method")

/-- Embedding of `HttpClient::execute_tool` up to the transport: build the
URL, parse the method, then attach query parameters (GET/DELETE) or a body
(POST/PUT/PATCH). -/
def execute_tool (fileRead b64 : String → Option (List Nat)) (base_url : String)
    (tool : McpTool) (params : Json) : Except McpError RequestPlan :=
  let url := build_url base_url tool.path params
  match parse_method tool.method with
  | .error e => .error e
  | .ok _ =>
      match strToUpper tool.method with
      | "GET" | "DELETE" =>
          .ok { method := tool.method, url := url, query := add_query_params params, body := none }
      | "POST" | "PUT" | "PATCH" =>
          (match add_request_body fileRead b64 params with
           | .ok b => .ok { method := tool.method, url := url, query := [], body := some b }
           | .error e => .error e)
      | _ => .ok { method := tool.method, url := url, query := [], body := none }

/-- A raw HTTP response as read by `handle_response`: status code, the
`content-type` header when present, and the body text. -/
structure HttpResponse where
  status : Nat
  contentType : Option String
  body : String

/-- Embedding of `HttpClient::handle_response`: non-2xx statuses fail with
the status and body; a JSON content type parses the body (empty body is JSON
null, a parse failure is an error); anything else returns the body text. -/
def handle_response (r : HttpResponse) : Except McpError Json :=
  if ¬ (200 ≤ r.status ∧ r.status ≤ 299) then
    .error (.toolExecution r.status r.body)
  else
    let content_type := r.contentType.getD ""
    if strContainsSub content_type "application/json" then
      if r.body = "" then .ok .null
      else
        match parseJsonText r.body with
        | some v => .ok v
        | none => .error .jsonError
    else .ok (.str r.body)

/-! Catalog construction (`AnytypeJsonRpcServer::new` and
`AnytypeMcpServer::new` build the same two structures: the ordered tool list
and a name-keyed `HashMap` collected from it). -/

/-- The name-keyed lookup map collected from the tool list; `HashMap`
collection inserts in iteration order, so a later duplicate name overwrites
an earlier one. -/
def build_tool_map (tools : List McpTool) : List (String × McpTool) :=
  tools.foldl (fun m t => setAssoc m t.name t) []

/-- The catalog state shared by both server constructors: the ordered list
and the lookup map. -/
structure ServerCatalog where
  tools : List McpTool
  tool_map : List (String × McpTool)

/-- Embedding of the catalog construction in the server constructors. -/
def server_catalog (tools : List McpTool) : ServerCatalog :=
  { tools := tools, tool_map := build_tool_map tools }

/-- Tool lookup by exact name (`HashMap::get`). -/
def lookup_tool (catalog : ServerCatalog) (name : String) : Option McpTool :=
  lookupAssoc catalog.tool_map name

/-! Specification-side predicates (phrased from the spec's words, for
comparison against the embedded code) and concrete instances used by the
claim theorems. -/

/-- Spec-side check that a schema value's `type` field is present and one of
the six recognized kinds. -/
def recognizedTypeB (v : Json) : Bool :=
  match v.getKey? "type" with
  | some (.str t) => ["object", "array", "string", "number", "integer", "boolean"].contains t
  | _ => false

/-- Whether a schema kind is one of the union kinds (`oneOf`/`allOf`/`anyOf`). -/
def unionKindB : SchemaKind → Bool
  | .oneOf _ => true
  | .allOf _ => true
  | .anyOf _ => true
  | _ => false

/-- Union-kind test lifted to schema-or-reference (a reference converts to the
generic object schema, which does carry a `type`). -/
def refUnionB : SchemaOrRef → Bool
  | .item s => unionKindB s.kind
  | .ref _ => false

/-- Spec-side required-subset invariant on a schema value: when a `required`
list is present, every entry is a string naming a key of `properties`. -/
def requiredSubsetB (v : Json) : Bool :=
  match v.getKey? "required" with
  | none => true
  | some (.arr req) =>
      req.all (fun r =>
        match r with
        | .str name =>
            (match v.getKey? "properties" with
             | some (.obj props) => (props.map Prod.fst).contains name
             | _ => false)
        | _ => false)
  | some _ => false

/-- Text form fields of a multipart body, in order. -/
def text_fields (ps : List FormPart) : List (String × String) :=
  ps.filterMap (fun p => match p with
    | .textPart k v => some (k, v)
    | _ => none)

/-- The text form field produced (or not) by one argument entry of the
multipart loop. -/
def text_only_field (kv : String × Json) : Option FormPart :=
  if kv.1 = "_file_upload" then none
  else if underscoreFirst kv.1 then none
  else some (.textPart kv.1 (value_str kv.2))

/-- The query pair produced (or not) by one argument entry of
`add_query_params`. -/
def query_pair (kv : String × Json) : Option (String × String) :=
  if underscoreFirst kv.1 then none
  else
    match kv.2 with
    | .str s => some (kv.1, s)
    | .null => none
    | other => some (kv.1, trimMatchesChar '"' (Json.serialize other))

/-- An absent filesystem and a failing base64 decoder (concrete instantiation
of the abstracted environment). -/
def noFs : String → Option (List Nat) := fun _ => none

/-- A stub base64 decoder that decodes everything to the bytes `[1, 2, 3]`
(concrete instantiation of the abstracted `base64` crate). -/
def b64stub : String → Option (List Nat) := fun _ => some [1, 2, 3]

/-- Inline string schema used by the end-to-end scenario. -/
def strSchema1 : Schema := .mk ⟨none, none⟩ (.tyString .empty [])

/-- Inline integer schema used by the end-to-end scenario. -/
def intSchema1 : Schema := .mk ⟨none, none⟩ (.tyInteger .empty)

/-- The GET operation of the end-to-end scenario: required path parameter
`id` (string) and required query parameter `limit` (integer). -/
def op1 : Operation :=
  { operationId := none, description := none, summary := none,
    parameters :=
      [.item { location := .path,
               data := { name := "id", required := true, format := .schema (.item strSchema1) } },
       .item { location := .query,
               data := { name := "limit", required := true, format := .schema (.item intSchema1) } }],
    requestBody := none }

/-- The path table of the end-to-end scenario: a single path with a single
GET operation. -/
def spec1 : List (String × RefOr PathItem) :=
  [("/users/\x7bid\x7d",
    .item { get := some op1, post := none, put := none, delete := none, patch := none })]

/-- The call arguments of the end-to-end scenario. -/
def args1 : Json := .obj [("id", .str "42"), ("limit", .num 5)]

/-- The tool extracted in the end-to-end scenario. -/
def tool1 : McpTool := process_operation "/users/\x7bid\x7d" "GET" op1

/-- First of two tools sharing the name `dup`. -/
def tDup1 : McpTool :=
  { name := "dup", description := none, input_schema := .null, method := "GET",
    path := "/a", operation_id := "dup" }

/-- Second of two tools sharing the name `dup`. -/
def tDup2 : McpTool :=
  { name := "dup", description := none, input_schema := .null, method := "POST",
    path := "/b", operation_id := "dup" }

/-- The text-field pair produced (or not) by one argument entry of the
multipart loop. -/
def text_field_pair (kv : String × Json) : Option (String × String) :=
  if kv.1 = "_file_upload" then none
  else if underscoreFirst kv.1 then none
  else some (kv.1, value_str kv.2)

/-! Helper lemmas. -/

theorem lookupAssoc_setAssoc {α : Type} (kvs : List (String × α)) (k : String) (x : α)
    (k2 : String) :
    lookupAssoc (setAssoc kvs k x) k2 = if k = k2 then some x else lookupAssoc kvs k2 := by
  induction kvs with
  | nil => simp [setAssoc, lookupAssoc]
  | cons hd tl ih =>
      obtain ⟨k0, v0⟩ := hd
      by_cases h1 : k0 = k
      · subst h1
        by_cases h2 : k0 = k2 <;> simp [setAssoc, lookupAssoc, h2]
      · by_cases h2 : k0 = k2
        · subst h2
          have h3 : ¬ k = k0 := fun h => h1 h.symm
          simp [setAssoc, lookupAssoc, h1, h3]
        · simp [setAssoc, lookupAssoc, h1, h2, ih]

theorem mem_keys_setAssoc {α : Type} (kvs : List (String × α)) (k : String) (x : α)
    (r : String) :
    r ∈ (setAssoc kvs k x).map Prod.fst ↔ r = k ∨ r ∈ kvs.map Prod.fst := by
  induction kvs with
  | nil => simp [setAssoc]
  | cons hd tl ih =>
      obtain ⟨k0, v0⟩ := hd
      by_cases h1 : k0 = k
      · subst h1
        simp [setAssoc]
        try tauto
      · simp [setAssoc, h1, ih]
        tauto

theorem getKey?_setKey_diff (v : Json) (k : String) (x : Json) (k2 : String) (h : ¬ k = k2) :
    (v.setKey k x).getKey? k2 = v.getKey? k2 := by
  cases v <;> simp [Json.setKey, Json.getKey?, lookupAssoc_setAssoc, h]

theorem getKey?_setKey_same (kvs : List (String × Json)) (k : String) (x : Json) :
    ((Json.obj kvs).setKey k x).getKey? k = some x := by
  simp [Json.setKey, Json.getKey?, lookupAssoc_setAssoc]

theorem setKey_obj_isObj (kvs : List (String × Json)) (k : String) (x : Json) :
    ∃ kvs2, (Json.obj kvs).setKey k x = .obj kvs2 := ⟨setAssoc kvs k x, rfl⟩

theorem apply_meta_getKey_other (data : SchemaData) (js : Json) (k : String)
    (h1 : ¬ k = "title") (h2 : ¬ k = "description") :
    (apply_meta data js).getKey? k = js.getKey? k := by
  unfold apply_meta
  have h1s : ¬ ("title" : String) = k := fun h => h1 h.symm
  have h2s : ¬ ("description" : String) = k := fun h => h2 h.symm
  cases data.title <;> cases data.description <;>
    simp [getKey?_setKey_diff _ _ _ _ h1s, getKey?_setKey_diff _ _ _ _ h2s]

theorem apply_meta_title (data : SchemaData) (kvs : List (String × Json))
    (h : lookupAssoc kvs "title" = none) :
    (apply_meta data (.obj kvs)).getKey? "title" = (data.title).map Json.str := by
  unfold apply_meta
  cases ht : data.title with
  | none =>
      cases hd : data.description with
      | none => simp [Json.getKey?, h]
      | some d =>
          rw [getKey?_setKey_diff _ _ _ _ (by simp)]
          simp [Json.getKey?, h]
  | some t =>
      cases hd : data.description with
      | none => simp [getKey?_setKey_same]
      | some d =>
          rw [getKey?_setKey_diff _ _ _ _ (by simp)]
          simp [getKey?_setKey_same]

theorem apply_meta_description (data : SchemaData) (kvs : List (String × Json))
    (h : lookupAssoc kvs "description" = none) :
    (apply_meta data (.obj kvs)).getKey? "description" = (data.description).map Json.str := by
  unfold apply_meta
  cases ht : data.title with
  | none =>
      cases hd : data.description with
      | none => simp [Json.getKey?, h]
      | some d => simp [getKey?_setKey_same]
  | some t =>
      cases hd : data.description with
      | none =>
          rw [getKey?_setKey_diff _ _ _ _ (by simp)]
          simp [Json.getKey?, h]
      | some d => simp [Json.setKey, Json.getKey?, lookupAssoc_setAssoc]

theorem apply_meta_obj (data : SchemaData) (kvs : List (String × Json)) :
    ∃ kvs2, apply_meta data (.obj kvs) = .obj kvs2 := by
  unfold apply_meta
  cases data.title <;> cases data.description <;> simp [Json.setKey]

theorem convert_kind_string (fmt : VariantOrUnknownOrEmpty StringFormat)
    (en : List (Option String)) :
    ∃ kvs, convert_kind (.tyString fmt en) = .ok (.obj kvs) ∧
      lookupAssoc kvs "type" = some (.str "string") ∧
      lookupAssoc kvs "format" =
        (match fmt with | .item f => some (.str f.debugStr) | _ => none) ∧
      lookupAssoc kvs "enum" =
        (if (en.filterMap id).isEmpty then none
         else some (.arr ((en.filterMap id).map Json.str))) ∧
      lookupAssoc kvs "title" = none ∧ lookupAssoc kvs "description" = none := by
  by_cases h2 : (en.filterMap id).isEmpty
  · have h2e : (if (en.filterMap id).isEmpty then (none : Option Json)
        else some (.arr ((en.filterMap id).map Json.str))) = none := by simp [h2]
    by_cases h1 : en.isEmpty
    · cases fmt with
      | item f =>
          exact ⟨[("type", .str "string"), ("format", .str f.debugStr)],
            by simp [convert_kind, h1, Json.setKey, setAssoc],
            by simp [lookupAssoc], by simp [lookupAssoc], by rw [if_pos h2]; simp [lookupAssoc],
            by simp [lookupAssoc], by simp [lookupAssoc]⟩
      | unknown s =>
          exact ⟨[("type", .str "string")],
            by simp [convert_kind, h1, Json.setKey, setAssoc],
            by simp [lookupAssoc], by simp [lookupAssoc], by rw [if_pos h2]; simp [lookupAssoc],
            by simp [lookupAssoc], by simp [lookupAssoc]⟩
      | empty =>
          exact ⟨[("type", .str "string")],
            by simp [convert_kind, h1, Json.setKey, setAssoc],
            by simp [lookupAssoc], by simp [lookupAssoc], by rw [if_pos h2]; simp [lookupAssoc],
            by simp [lookupAssoc], by simp [lookupAssoc]⟩
    · cases fmt with
      | item f =>
          exact ⟨[("type", .str "string"), ("format", .str f.debugStr)],
            by simp [convert_kind, h1, h2, Json.setKey, setAssoc],
            by simp [lookupAssoc], by simp [lookupAssoc], by rw [if_pos h2]; simp [lookupAssoc],
            by simp [lookupAssoc], by simp [lookupAssoc]⟩
      | unknown s =>
          exact ⟨[("type", .str "string")],
            by simp [convert_kind, h1, h2, Json.setKey, setAssoc],
            by simp [lookupAssoc], by simp [lookupAssoc], by rw [if_pos h2]; simp [lookupAssoc],
            by simp [lookupAssoc], by simp [lookupAssoc]⟩
      | empty =>
          exact ⟨[("type", .str "string")],
            by simp [convert_kind, h1, h2, Json.setKey, setAssoc],
            by simp [lookupAssoc], by simp [lookupAssoc], by rw [if_pos h2]; simp [lookupAssoc],
            by simp [lookupAssoc], by simp [lookupAssoc]⟩
  · have h1 : ¬ en.isEmpty := by
      intro h
      rw [List.isEmpty_iff] at h
      subst h
      simp at h2
    cases fmt with
    | item f =>
        exact ⟨[("type", .str "string"), ("format", .str f.debugStr),
            ("enum", .arr ((en.filterMap id).map Json.str))],
          by simp [convert_kind, h1, h2, Json.setKey, setAssoc],
          by simp [lookupAssoc], by simp [lookupAssoc], by rw [if_neg h2]; simp [lookupAssoc],
          by simp [lookupAssoc], by simp [lookupAssoc]⟩
    | unknown s =>
        exact ⟨[("type", .str "string"),
            ("enum", .arr ((en.filterMap id).map Json.str))],
          by simp [convert_kind, h1, h2, Json.setKey, setAssoc],
          by simp [lookupAssoc], by simp [lookupAssoc], by rw [if_neg h2]; simp [lookupAssoc],
          by simp [lookupAssoc], by simp [lookupAssoc]⟩
    | empty =>
        exact ⟨[("type", .str "string"),
            ("enum", .arr ((en.filterMap id).map Json.str))],
          by simp [convert_kind, h1, h2, Json.setKey, setAssoc],
          by simp [lookupAssoc], by simp [lookupAssoc], by rw [if_neg h2]; simp [lookupAssoc],
          by simp [lookupAssoc], by simp [lookupAssoc]⟩

theorem convert_kind_number (fmt : VariantOrUnknownOrEmpty NumberFormat) :
    ∃ kvs, convert_kind (.tyNumber fmt) = .ok (.obj kvs) ∧
      lookupAssoc kvs "type" = some (.str "number") ∧
      lookupAssoc kvs "format" =
        (match fmt with | .item f => some (.str f.debugStr) | _ => none) ∧
      lookupAssoc kvs "title" = none ∧ lookupAssoc kvs "description" = none := by
  cases fmt with
  | item f =>
      exact ⟨[("type", .str "number"), ("format", .str f.debugStr)],
        by simp [convert_kind, Json.setKey, setAssoc],
        by simp [lookupAssoc], by simp [lookupAssoc],
        by simp [lookupAssoc], by simp [lookupAssoc]⟩
  | unknown s =>
      exact ⟨[("type", .str "number")],
        by simp [convert_kind, Json.setKey, setAssoc],
        by simp [lookupAssoc], by simp [lookupAssoc],
        by simp [lookupAssoc], by simp [lookupAssoc]⟩
  | empty =>
      exact ⟨[("type", .str "number")],
        by simp [convert_kind, Json.setKey, setAssoc],
        by simp [lookupAssoc], by simp [lookupAssoc],
        by simp [lookupAssoc], by simp [lookupAssoc]⟩

theorem convert_kind_integer (fmt : VariantOrUnknownOrEmpty IntegerFormat) :
    ∃ kvs, convert_kind (.tyInteger fmt) = .ok (.obj kvs) ∧
      lookupAssoc kvs "type" = some (.str "integer") ∧
      lookupAssoc kvs "format" =
        (match fmt with | .item f => some (.str f.debugStr) | _ => none) ∧
      lookupAssoc kvs "title" = none ∧ lookupAssoc kvs "description" = none := by
  cases fmt with
  | item f =>
      exact ⟨[("type", .str "integer"), ("format", .str f.debugStr)],
        by simp [convert_kind, Json.setKey, setAssoc],
        by simp [lookupAssoc], by simp [lookupAssoc],
        by simp [lookupAssoc], by simp [lookupAssoc]⟩
  | unknown s =>
      exact ⟨[("type", .str "integer")],
        by simp [convert_kind, Json.setKey, setAssoc],
        by simp [lookupAssoc], by simp [lookupAssoc],
        by simp [lookupAssoc], by simp [lookupAssoc]⟩
  | empty =>
      exact ⟨[("type", .str "integer")],
        by simp [convert_kind, Json.setKey, setAssoc],
        by simp [lookupAssoc], by simp [lookupAssoc],
        by simp [lookupAssoc], by simp [lookupAssoc]⟩

mutual
theorem convert_schema_ok (s : Schema) :
    ∃ v, convert_schema s = .ok v ∧
      recognizedTypeB v = !unionKindB s.kind ∧
      v.getKey? "title" = (s.data.title).map Json.str ∧
      v.getKey? "description" = (s.data.description).map Json.str := by
  match s with
  | .mk data kind =>
      obtain ⟨kvs, hk, hrec, ht, hd⟩ := convert_kind_ok kind
      refine ⟨apply_meta data (.obj kvs), ?_, ?_, ?_, ?_⟩
      · simp [convert_schema, hk]
      · have htype := apply_meta_getKey_other data (.obj kvs) "type" (by simp) (by simp)
        unfold recognizedTypeB at hrec ⊢
        rw [htype]
        simpa [Schema.kind] using hrec
      · simpa [Schema.data] using apply_meta_title data kvs ht
      · simpa [Schema.data] using apply_meta_description data kvs hd

theorem convert_kind_ok (k : SchemaKind) :
    ∃ kvs, convert_kind k = .ok (.obj kvs) ∧
      recognizedTypeB (.obj kvs) = !unionKindB k ∧
      lookupAssoc kvs "title" = none ∧
      lookupAssoc kvs "description" = none := by
  match k with
  | .tyString fmt en =>
      obtain ⟨kvs, hk, htype, _, _, ht, hd⟩ := convert_kind_string fmt en
      exact ⟨kvs, hk, by simp [recognizedTypeB, Json.getKey?, htype, unionKindB], ht, hd⟩
  | .tyNumber fmt =>
      obtain ⟨kvs, hk, htype, _, ht, hd⟩ := convert_kind_number fmt
      exact ⟨kvs, hk, by simp [recognizedTypeB, Json.getKey?, htype, unionKindB], ht, hd⟩
  | .tyInteger fmt =>
      obtain ⟨kvs, hk, htype, _, ht, hd⟩ := convert_kind_integer fmt
      exact ⟨kvs, hk, by simp [recognizedTypeB, Json.getKey?, htype, unionKindB], ht, hd⟩
  | .tyBoolean =>
      exact ⟨[("type", .str "boolean")], by simp [convert_kind, Json.setKey, setAssoc],
        by simp [recognizedTypeB, Json.getKey?, lookupAssoc, unionKindB],
        by simp [lookupAssoc], by simp [lookupAssoc]⟩
  | .anyOther =>
      exact ⟨[("type", .str "object")], by simp [convert_kind, Json.setKey, setAssoc],
        by simp [recognizedTypeB, Json.getKey?, lookupAssoc, unionKindB],
        by simp [lookupAssoc], by simp [lookupAssoc]⟩
  | .tyObject props req =>
      by_cases hp : props.isEmpty
      · by_cases hr : req.isEmpty
        · exact ⟨[("type", .str "object")],
            by simp [convert_kind, hp, hr, Json.setKey, setAssoc],
            by simp [recognizedTypeB, Json.getKey?, lookupAssoc, unionKindB],
            by simp [lookupAssoc], by simp [lookupAssoc]⟩
        · exact ⟨[("type", .str "object"), ("required", .arr (req.map Json.str))],
            by simp [convert_kind, hp, hr, Json.setKey, setAssoc],
            by simp [recognizedTypeB, Json.getKey?, lookupAssoc, unionKindB],
            by simp [lookupAssoc], by simp [lookupAssoc]⟩
      · obtain ⟨ps, hps, _⟩ := convert_props_ok props
        by_cases hr : req.isEmpty
        · exact ⟨[("type", .str "object"), ("properties", .obj ps)],
            by simp [convert_kind, hp, hr, hps, Json.setKey, setAssoc],
            by simp [recognizedTypeB, Json.getKey?, lookupAssoc, unionKindB],
            by simp [lookupAssoc], by simp [lookupAssoc]⟩
        · exact ⟨[("type", .str "object"), ("properties", .obj ps),
              ("required", .arr (req.map Json.str))],
            by simp [convert_kind, hp, hr, hps, Json.setKey, setAssoc],
            by simp [recognizedTypeB, Json.getKey?, lookupAssoc, unionKindB],
            by simp [lookupAssoc], by simp [lookupAssoc]⟩
  | .tyArray items =>
      match items with
      | none =>
          exact ⟨[("type", .str "array")], by simp [convert_kind, Json.setKey, setAssoc],
            by simp [recognizedTypeB, Json.getKey?, lookupAssoc, unionKindB],
            by simp [lookupAssoc], by simp [lookupAssoc]⟩
      | some iref =>
          obtain ⟨iv, hiv, _⟩ := convert_schema_or_ref_ok iref
          exact ⟨[("type", .str "array"), ("items", iv)],
            by simp [convert_kind, hiv, Json.setKey, setAssoc],
            by simp [recognizedTypeB, Json.getKey?, lookupAssoc, unionKindB],
            by simp [lookupAssoc], by simp [lookupAssoc]⟩
  | .oneOf alts =>
      obtain ⟨vs, hvs⟩ := convert_list_ok alts
      exact ⟨[("oneOf", .arr vs)], by simp [convert_kind, hvs, Json.setKey, setAssoc],
        by simp [recognizedTypeB, Json.getKey?, lookupAssoc, unionKindB],
        by simp [lookupAssoc], by simp [lookupAssoc]⟩
  | .allOf alts =>
      obtain ⟨vs, hvs⟩ := convert_list_ok alts
      exact ⟨[("allOf", .arr vs)], by simp [convert_kind, hvs, Json.setKey, setAssoc],
        by simp [recognizedTypeB, Json.getKey?, lookupAssoc, unionKindB],
        by simp [lookupAssoc], by simp [lookupAssoc]⟩
  | .anyOf alts =>
      obtain ⟨vs, hvs⟩ := convert_list_ok alts
      exact ⟨[("anyOf", .arr vs)], by simp [convert_kind, hvs, Json.setKey, setAssoc],
        by simp [recognizedTypeB, Json.getKey?, lookupAssoc, unionKindB],
        by simp [lookupAssoc], by simp [lookupAssoc]⟩

theorem convert_props_ok (l : List (String × SchemaOrRef)) :
    ∃ ps, convert_props l = .ok ps ∧ ps.map Prod.fst = l.map Prod.fst := by
  match l with
  | [] => exact ⟨[], rfl, rfl⟩
  | (k, sr) :: rest =>
      obtain ⟨v, hv, _⟩ := convert_schema_or_ref_ok sr
      obtain ⟨tail, htail, hkeys⟩ := convert_props_ok rest
      exact ⟨(k, v) :: tail, by simp [convert_props, hv, htail], by simp [hkeys]⟩

theorem convert_list_ok (l : List SchemaOrRef) :
    ∃ vs, convert_list l = .ok vs := by
  match l with
  | [] => exact ⟨[], rfl⟩
  | sr :: rest =>
      obtain ⟨v, hv, _⟩ := convert_schema_or_ref_ok sr
      obtain ⟨tail, htail⟩ := convert_list_ok rest
      exact ⟨v :: tail, by simp [convert_list, hv, htail]⟩

theorem convert_schema_or_ref_ok (r : SchemaOrRef) :
    ∃ v, convert_schema_or_ref r = .ok v ∧ recognizedTypeB v = !refUnionB r := by
  match r with
  | .item s =>
      obtain ⟨v, hv, hrec, _, _⟩ := convert_schema_ok s
      exact ⟨v, by simp [convert_schema_or_ref, hv], by simpa [refUnionB] using hrec⟩
  | .ref rf =>
      exact ⟨.obj [("type", .str "object")], rfl,
        by simp [recognizedTypeB, Json.getKey?, lookupAssoc, refUnionB]⟩
end

theorem requiredSubsetB_congr (v w : Json) (h1 : v.getKey? "required" = w.getKey? "required")
    (h2 : v.getKey? "properties" = w.getKey? "properties") :
    requiredSubsetB v = requiredSubsetB w := by
  unfold requiredSubsetB
  rw [h1, h2]

theorem required_subset_literal (props : List (String × Json)) (req : List String)
    (h : ∀ r ∈ req, r ∈ props.map Prod.fst) :
    requiredSubsetB (.obj [("type", .str "object"), ("properties", .obj props),
      ("required", .arr (req.map Json.str))]) = true := by
  have h1 : (Json.obj [("type", .str "object"), ("properties", .obj props),
      ("required", .arr (req.map Json.str))]).getKey? "required" =
      some (.arr (req.map Json.str)) := by simp [Json.getKey?, lookupAssoc]
  have h2 : (Json.obj [("type", .str "object"), ("properties", .obj props),
      ("required", .arr (req.map Json.str))]).getKey? "properties" =
      some (.obj props) := by simp [Json.getKey?, lookupAssoc]
  unfold requiredSubsetB
  rw [h1]
  simp only [h2, List.all_eq_true, List.mem_map]
  rintro r ⟨name, hn, rfl⟩
  exact List.elem_eq_true_of_mem (h name hn)

theorem content_first_ok (media : List (String × Option SchemaOrRef)) :
    ∃ v, content_first media = .ok v := by
  match media with
  | [] => exact ⟨_, rfl⟩
  | (mt, some sref) :: rest =>
      obtain ⟨v, hv, _⟩ := convert_schema_or_ref_ok sref
      exact ⟨v, hv⟩
  | (mt, none) :: rest => exact content_first_ok rest

theorem process_parameter_ok (p : Parameter) : ∃ v, process_parameter p = .ok v := by
  unfold process_parameter
  cases hfmt : p.data.format with
  | schema sref =>
      obtain ⟨v, hv, _⟩ := convert_schema_or_ref_ok sref
      exact ⟨v, hv⟩
  | content media => exact content_first_ok media

theorem param_fold_inv (l : List (RefOr Parameter)) (props : List (String × Json))
    (req : List String) (h : ∀ r ∈ req, r ∈ props.map Prod.fst) :
    ∀ r ∈ (param_fold l (props, req)).2, r ∈ (param_fold l (props, req)).1.map Prod.fst := by
  induction l generalizing props req with
  | nil => simpa [param_fold] using h
  | cons hd tl ih =>
      cases hd with
      | item p =>
          obtain ⟨sv, hsv⟩ := process_parameter_ok p
          have hstep : param_fold (.item p :: tl) (props, req) =
              param_fold tl (setAssoc props p.data.name sv,
                if p.data.required then req ++ [p.data.name] else req) := by
            simp [param_fold, hsv]
          rw [hstep]
          apply ih
          intro r hr
          rw [mem_keys_setAssoc]
          by_cases hreq : p.data.required
          · simp only [hreq, if_true, List.mem_append, List.mem_singleton] at hr
            rcases hr with hr | hr
            · exact Or.inr (h r hr)
            · exact Or.inl hr
          · simp only [hreq, if_false] at hr
            exact Or.inr (h r hr)
      | ref rf =>
          have hstep : param_fold (.ref rf :: tl) (props, req) = param_fold tl (props, req) := by
            simp [param_fold]
          rw [hstep]
          exact ih props req h

theorem body_step_inv (rb : Option (RefOr RequestBody)) (props : List (String × Json))
    (req : List String) (h : ∀ r ∈ req, r ∈ props.map Prod.fst) :
    ∀ r ∈ (body_step rb (props, req)).2, r ∈ (body_step rb (props, req)).1.map Prod.fst := by
  match rb with
  | none => simpa [body_step] using h
  | some (.ref rf) => simpa [body_step] using h
  | some (.item request_body) =>
      cases hlu : lookupAssoc request_body.content "application/json" with
      | none =>
          have hstep : body_step (some (.item request_body)) (props, req) = (props, req) := by
            simp [body_step, hlu]
          rw [hstep]
          exact h
      | some media =>
          cases hs : media.schema with
          | none =>
              have hstep : body_step (some (.item request_body)) (props, req) = (props, req) := by
                simp [body_step, hlu, hs]
              rw [hstep]
              exact h
          | some sref =>
              cases hcv : convert_schema_or_ref sref with
              | error e =>
                  have hstep : body_step (some (.item request_body)) (props, req) =
                      (props, req) := by
                    simp [body_step, hlu, hs, hcv]
                  rw [hstep]
                  exact h
              | ok schema =>
                  have hstep : body_step (some (.item request_body)) (props, req) =
                      (setAssoc props "body" schema,
                       if request_body.required then req ++ ["body"] else req) := by
                    simp [body_step, hlu, hs, hcv]
                  rw [hstep]
                  dsimp only
                  intro r hr
                  rw [mem_keys_setAssoc]
                  by_cases hreq : request_body.required
                  · simp only [hreq, if_true, List.mem_append, List.mem_singleton] at hr
                    rcases hr with hr | hr
                    · exact Or.inr (h r hr)
                    · exact Or.inl hr
                  · simp only [hreq, if_false] at hr
                    exact Or.inr (h r hr)

theorem process_operation_required_subset (path method : String) (op : Operation) :
    requiredSubsetB (process_operation path method op).input_schema = true := by
  have hinv : ∀ r ∈ (body_step op.requestBody (param_fold op.parameters ([], []))).2,
      r ∈ (body_step op.requestBody (param_fold op.parameters ([], []))).1.map Prod.fst :=
    body_step_inv _ _ _ (param_fold_inv _ _ _ (by intro r hr; simp at hr))
  exact required_subset_literal _ _ hinv

theorem convert_obj_required_subset (d : SchemaData) (props : List (String × SchemaOrRef))
    (req : List String) (h : ∀ r ∈ req, r ∈ props.map Prod.fst) :
    ∃ v, convert_schema (.mk d (.tyObject props req)) = .ok v ∧ requiredSubsetB v = true := by
  by_cases hr : req.isEmpty
  · obtain ⟨v, hv, _, _, _⟩ := convert_schema_ok (.mk d (.tyObject props req))
    refine ⟨v, hv, ?_⟩
    obtain ⟨kvs, hk, _, _, _⟩ := convert_kind_ok (.tyObject props req)
    have hv2 : v = apply_meta d (.obj kvs) := by
      rw [show convert_schema (.mk d (.tyObject props req)) =
          .ok (apply_meta d (.obj kvs)) from by simp [convert_schema, hk]] at hv
      exact ((Except.ok.injEq _ _).mp hv).symm
    subst hv2
    have hreq : (apply_meta d (.obj kvs)).getKey? "required" = lookupAssoc kvs "required" := by
      rw [apply_meta_getKey_other d (.obj kvs) "required" (by simp) (by simp)]
      rfl
    have hreqnone : lookupAssoc kvs "required" = none := by
      rw [List.isEmpty_iff] at hr
      subst hr
      by_cases hp : props.isEmpty
      · rw [show convert_kind (.tyObject props []) =
            .ok (.obj [("type", .str "object")]) from by
              simp [convert_kind, hp, Json.setKey, setAssoc]] at hk
        cases hk
        simp [lookupAssoc]
      · obtain ⟨ps, hps, _⟩ := convert_props_ok props
        rw [show convert_kind (.tyObject props []) =
            .ok (.obj [("type", .str "object"), ("properties", .obj ps)]) from by
              simp [convert_kind, hp, hps, Json.setKey, setAssoc]] at hk
        cases hk
        simp [lookupAssoc]
    unfold requiredSubsetB
    rw [hreq, hreqnone]
  · by_cases hp : props.isEmpty
    · exfalso
      have hne : req ≠ [] := by
        intro hcon
        rw [hcon] at hr
        simp at hr
      obtain ⟨r, hrm⟩ := List.exists_mem_of_ne_nil req hne
      have := h r hrm
      rw [List.isEmpty_iff] at hp
      rw [hp] at this
      simp at this
    · obtain ⟨ps, hps, hkeys⟩ := convert_props_ok props
      have hk : convert_kind (.tyObject props req) =
          .ok (.obj [("type", .str "object"), ("properties", .obj ps),
            ("required", .arr (req.map Json.str))]) := by
        simp [convert_kind, hp, hr, hps, Json.setKey, setAssoc]
      refine ⟨apply_meta d (.obj [("type", .str "object"), ("properties", .obj ps),
          ("required", .arr (req.map Json.str))]), by simp [convert_schema, hk], ?_⟩
      have hcongr := requiredSubsetB_congr
        (apply_meta d (.obj [("type", .str "object"), ("properties", .obj ps),
          ("required", .arr (req.map Json.str))]))
        (.obj [("type", .str "object"), ("properties", .obj ps),
          ("required", .arr (req.map Json.str))])
        (apply_meta_getKey_other _ _ _ (by simp) (by simp))
        (apply_meta_getKey_other _ _ _ (by simp) (by simp))
      rw [hcongr]
      apply required_subset_literal
      intro r hrm
      rw [hkeys]
      exact h r hrm

theorem query_foldl_aux (kvs : List (String × Json)) (acc : List (String × String)) :
    kvs.foldl query_step acc = acc ++ kvs.filterMap query_pair := by
  induction kvs generalizing acc with
  | nil => simp
  | cons kv tl ih =>
      obtain ⟨k, v⟩ := kv
      rw [List.foldl_cons]
      by_cases hu : underscoreFirst k
      · have hstep : query_step acc (k, v) = acc := by simp [query_step, hu]
        rw [hstep, ih]
        simp [query_pair, hu]
      · cases v with
        | null =>
            have hstep : query_step acc (k, .null) = acc := by simp [query_step, hu]
            rw [hstep, ih]
            simp [query_pair, hu]
        | str s =>
            have hstep : query_step acc (k, .str s) = acc ++ [(k, s)] := by
              simp [query_step, hu]
            rw [hstep, ih]
            simp [query_pair, hu]
        | bool b =>
            have hstep : query_step acc (k, .bool b) =
                acc ++ [(k, trimMatchesChar '"' (Json.serialize (.bool b)))] := by
              simp [query_step, hu]
            rw [hstep, ih]
            simp [query_pair, hu]
        | num n =>
            have hstep : query_step acc (k, .num n) =
                acc ++ [(k, trimMatchesChar '"' (Json.serialize (.num n)))] := by
              simp [query_step, hu]
            rw [hstep, ih]
            simp [query_pair, hu]
        | arr xs =>
            have hstep : query_step acc (k, .arr xs) =
                acc ++ [(k, trimMatchesChar '"' (Json.serialize (.arr xs)))] := by
              simp [query_step, hu]
            rw [hstep, ih]
            simp [query_pair, hu]
        | obj okvs =>
            have hstep : query_step acc (k, .obj okvs) =
                acc ++ [(k, trimMatchesChar '"' (Json.serialize (.obj okvs)))] := by
              simp [query_step, hu]
            rw [hstep, ih]
            simp [query_pair, hu]

theorem add_query_params_eq (kvs : List (String × Json)) :
    add_query_params (.obj kvs) = kvs.filterMap query_pair := by
  have h := query_foldl_aux kvs []
  simpa [add_query_params, Json.asObject] using h

theorem build_map_lookup (ts : List McpTool) (m : List (String × McpTool)) (n : String) :
    lookupAssoc (ts.foldl (fun m t => setAssoc m t.name t) m) n =
      (ts.reverse.find? (fun t => t.name == n)).or (lookupAssoc m n) := by
  induction ts generalizing m with
  | nil => simp
  | cons t tl ih =>
      simp only [List.foldl_cons, List.reverse_cons]
      rw [ih, List.find?_append]
      by_cases hb : t.name = n
      · simp [lookupAssoc_setAssoc, hb, List.find?, Option.or_assoc]
      · have hbe : (t.name == n) = false := by simp [hb]
        simp [lookupAssoc_setAssoc, hb, List.find?, hbe, Option.or_assoc]

theorem multipart_parts_text_fields (fr b64 : String → Option (List Nat))
    (kvs : List (String × Json)) (ps : List FormPart)
    (h : multipart_parts fr b64 kvs = .ok ps) :
    text_fields ps = kvs.filterMap text_field_pair := by
  induction kvs generalizing ps with
  | nil =>
      simp only [multipart_parts] at h
      cases h
      simp [text_fields]
  | cons kv tl ih =>
      obtain ⟨k, v⟩ := kv
      by_cases hk : k = "_file_upload"
      · subst hk
        cases hv : v.asStr with
        | some fd =>
            cases hdec : decode_upload fr b64 fd with
            | error e => simp [multipart_parts, hv, hdec] at h
            | ok bytes =>
                cases hrest : multipart_parts fr b64 tl with
                | error e => simp [multipart_parts, hv, hdec, hrest] at h
                | ok ps2 =>
                    have hps : ps = .filePart bytes :: ps2 := by
                      simp [multipart_parts, hv, hdec, hrest] at h
                      exact h.symm
                    subst hps
                    simp [text_fields, text_field_pair, List.filterMap_cons]
                    simpa [text_fields] using ih ps2 hrest
        | none =>
            have h2 : multipart_parts fr b64 tl = .ok ps := by
              simpa [multipart_parts, hv] using h
            rw [ih ps h2]
            simp [text_field_pair, hv, List.filterMap_cons]
      · by_cases hu : underscoreFirst k
        · have h2 : multipart_parts fr b64 tl = .ok ps := by
            simpa [multipart_parts, hk, hu] using h
          rw [ih ps h2]
          simp [text_field_pair, hk, hu, List.filterMap_cons]
        · cases hrest : multipart_parts fr b64 tl with
          | error e => simp [multipart_parts, hk, hu, hrest] at h
          | ok ps2 =>
              have hps : ps = .textPart k (value_str v) :: ps2 := by
                simp [multipart_parts, hk, hu, hrest] at h
                exact h.symm
              subst hps
              simp only [text_fields, List.filterMap_cons]
              rw [show text_field_pair (k, v) = some (k, value_str v) from by
                simp [text_field_pair, hk, hu]]
              simpa [text_fields] using ih ps2 hrest

theorem multipart_parts_nonstring (fr b64 : String → Option (List Nat))
    (kvs : List (String × Json))
    (hns : ∀ p ∈ kvs, p.1 = "_file_upload" → p.2.asStr = none) :
    multipart_parts fr b64 kvs = .ok (kvs.filterMap text_only_field) := by
  induction kvs with
  | nil => simp [multipart_parts]
  | cons kv tl ih =>
      obtain ⟨k, v⟩ := kv
      have htl : ∀ p ∈ tl, p.1 = "_file_upload" → p.2.asStr = none := by
        intro p hp
        exact hns p (List.mem_cons_of_mem _ hp)
      by_cases hk : k = "_file_upload"
      · subst hk
        have hv : v.asStr = none := hns ("_file_upload", v) (List.mem_cons_self _ _) rfl
        simp [multipart_parts, hv, ih htl, text_only_field, List.filterMap_cons]
      · by_cases hu : underscoreFirst k
        · simp [multipart_parts, hk, hu, ih htl, text_only_field, List.filterMap_cons]
        · simp [multipart_parts, hk, hu, ih htl, text_only_field, List.filterMap_cons]

theorem text_only_no_file (kvs : List (String × Json)) (bs : List Nat) :
    FormPart.filePart bs ∉ kvs.filterMap text_only_field := by
  intro hmem
  rw [List.mem_filterMap] at hmem
  obtain ⟨kv, _, hkv⟩ := hmem
  unfold text_only_field at hkv
  split_ifs at hkv
  simp_all

/-! Claim theorems. -/

/-- Claim C1, counterexample: in the end-to-end scenario the built request's
query is `[("id","42"), ("limit","5")]`, not exactly `limit=5` — the
already-substituted path parameter `id` is forwarded as a query parameter
too, refuting the claim's "query string containing exactly limit=5". -/
theorem c1_counterexample :
    execute_tool noFs noFs "http://localhost:31009" tool1 args1 =
      .ok { method := "GET", url := "http://localhost:31009/users/42",
            query := [("id", "42"), ("limit", "5")], body := none } ∧
    [("id", "42"), ("limit", "5")] ≠ [(("limit" : String), ("5" : String))] := by
  exact ⟨rfl, by decide⟩

/-- Claim C1 (amended): the scenario's API description extracts to exactly one
tool whose `inputSchema.required` is `["id","limit"]`, and calling it with
`id = "42"`, `limit = 5` issues a GET whose URL is `{base}/users/42` (path
parameter substituted) and whose query is `id=42&limit=5` — `limit=5` plus the
forwarded path parameter. -/
theorem c1_end_to_end_amended :
    convert_to_tools spec1 = [tool1] ∧
    tool1.input_schema.getKey? "required" = some (.arr [.str "id", .str "limit"]) ∧
    execute_tool noFs noFs "http://localhost:31009" tool1 args1 =
      .ok { method := "GET", url := "http://localhost:31009/users/42",
            query := [("id", "42"), ("limit", "5")], body := none } :=
  ⟨rfl, rfl, rfl⟩

/-- Claim C2, counterexample: a `oneOf` schema converts successfully but the
result carries no `type` field at all, refuting "the value it returns has a
type field equal to one of the six recognized kinds". -/
theorem c2_counterexample :
    convert_schema (.mk ⟨none, none⟩ (.oneOf [])) = .ok (.obj [("oneOf", .arr [])]) ∧
    recognizedTypeB (.obj [("oneOf", .arr [])]) = false :=
  ⟨rfl, rfl⟩

/-- Claim C2 (amended): the converter is total — `convert_schema` and
`convert_schema_or_ref` never fail on any input — and the result carries a
`type` field equal to one of the six recognized kinds exactly when the source
kind is not a union kind (`oneOf`/`allOf`/`anyOf`); union kinds produce a
value with no `type` field. -/
theorem c2_schema_totality_amended :
    (∀ s : Schema, ∃ v, convert_schema s = .ok v ∧ recognizedTypeB v = !unionKindB s.kind) ∧
    (∀ r : SchemaOrRef, ∃ v, convert_schema_or_ref r = .ok v ∧
      recognizedTypeB v = !refUnionB r) := by
  constructor
  · intro s
    obtain ⟨v, hv, hrec, _, _⟩ := convert_schema_ok s
    exact ⟨v, hv, hrec⟩
  · intro r
    exact convert_schema_or_ref_ok r

/-- Claim C3, counterexample: converting a source object schema that declares
`required = ["x"]` but no properties yields a schema whose `required` entry
`x` is not a key of (absent) `properties`, refuting the invariant for
converter-produced object schemas. -/
theorem c3_counterexample :
    convert_schema (.mk ⟨none, none⟩ (.tyObject [] ["x"])) =
      .ok (.obj [("type", .str "object"), ("required", .arr [.str "x"])]) ∧
    requiredSubsetB (.obj [("type", .str "object"), ("required", .arr [.str "x"])]) = false :=
  ⟨rfl, rfl⟩

/-- Claim C3 (amended): the top-level `inputSchema` built by
`process_operation` always satisfies the required-subset invariant; a
converter-produced object schema satisfies it whenever the source object's
`required` list is a subset of its declared property keys (the converter
copies `required` verbatim, so a source violating this propagates). -/
theorem c3_required_subset_amended :
    (∀ path method op,
      requiredSubsetB (process_operation path method op).input_schema = true) ∧
    (∀ d props req, (∀ r ∈ req, r ∈ props.map Prod.fst) →
      ∃ v, convert_schema (.mk d (.tyObject props req)) = .ok v ∧
        requiredSubsetB v = true) :=
  ⟨process_operation_required_subset, convert_obj_required_subset⟩

/-- Claim C3 witness: the amended theorem applied to a concrete object schema
whose `required` list is a subset of its property keys. -/
theorem c3_witness :
    (∀ r ∈ ["x"], r ∈ ([("x", SchemaOrRef.ref "other")].map Prod.fst)) ∧
    ∃ v, convert_schema (.mk ⟨none, none⟩ (.tyObject [("x", .ref "other")] ["x"])) = .ok v ∧
      requiredSubsetB v = true := by
  refine ⟨by simp, ?_⟩
  exact c3_required_subset_amended.2 ⟨none, none⟩ [("x", .ref "other")] ["x"] (by simp)

/-- Claim C4: response normalization — any non-2xx status fails carrying the
status and body; a 2xx JSON response with empty body yields JSON null; body
`\x7b"a":1\x7d` yields that parsed value; an unparsable JSON body fails; and a
non-JSON content type yields the body as a string value. -/
theorem c4_handle_response :
    (∀ st ct b, st < 200 ∨ 300 ≤ st →
        handle_response ⟨st, ct, b⟩ = .error (.toolExecution st b)) ∧
    handle_response ⟨200, some "application/json", ""⟩ = .ok .null ∧
    handle_response ⟨200, some "application/json", "\x7b\"a\":1\x7d"⟩ =
      .ok (.obj [("a", .num 1)]) ∧
    handle_response ⟨200, some "application/json", "\x7b"⟩ = .error .jsonError ∧
    handle_response ⟨200, some "text/plain", "ok"⟩ = .ok (.str "ok") := by
  refine ⟨?_, rfl, rfl, rfl, rfl⟩
  intro st ct b h
  have hc : ¬ (200 ≤ st ∧ st ≤ 299) := by omega
  unfold handle_response
  rw [if_pos hc]

/-- Claim C4 witness: the non-2xx branch of the theorem at status 404. -/
theorem c4_witness :
    (404 < 200 ∨ 300 ≤ 404) ∧
    handle_response ⟨404, some "text/plain", "not found"⟩ =
      .error (.toolExecution 404 "not found") :=
  ⟨by decide, c4_handle_response.1 404 (some "text/plain") "not found" (by decide)⟩

/-- Claim C5, counterexample: arguments containing the reserved key
`_file_upload` never produce a JSON body — the presence of the key is itself
the file-upload request, so the body is built as a multipart form, refuting
"the request body sent is the JSON object". -/
theorem c5_counterexample :
    add_request_body noFs b64stub
        (.obj [("name", .str "Ada"), ("_file_upload", .str "aGVsbG8=")]) =
      .ok (.multipartBody [.textPart "name" "Ada", .filePart [1, 2, 3]]) ∧
    ¬ ∃ v, add_request_body noFs b64stub
        (.obj [("name", .str "Ada"), ("_file_upload", .str "aGVsbG8=")]) =
      .ok (.jsonBody v) := by
  constructor
  · rfl
  · rintro ⟨v, hv⟩
    rw [show add_request_body noFs b64stub
        (.obj [("name", .str "Ada"), ("_file_upload", .str "aGVsbG8=")]) =
      .ok (.multipartBody [.textPart "name" "Ada", .filePart [1, 2, 3]]) from rfl] at hv
    simp at hv

/-- Claim C5 (amended): for a POST body whose arguments do not contain the
reserved `_file_upload` key, the JSON body sent is the argument object with
every key starting with `_` removed and no other key removed or altered. -/
theorem c5_body_stripping_amended (fr b64 : String → Option (List Nat))
    (kvs : List (String × Json)) (h : ∀ p ∈ kvs, p.1 ≠ "_file_upload") :
    add_request_body fr b64 (.obj kvs) =
      .ok (.jsonBody (.obj (kvs.filter (fun kv => ¬ underscoreFirst kv.1)))) := by
  have hany : (kvs.any fun kv => kv.1 = "_file_upload") = false := by
    rw [List.any_eq_false]
    intro p hp
    simpa using h p hp
  simp [add_request_body, Json.asObject, hany, strip_internal]

/-- Claim C5 witness: the amended theorem at concrete arguments with a
different reserved key. -/
theorem c5_witness :
    (∀ p ∈ [("name", Json.str "Ada"), ("_path", Json.str "/x")], p.1 ≠ "_file_upload") ∧
    add_request_body noFs noFs (.obj [("name", .str "Ada"), ("_path", .str "/x")]) =
      .ok (.jsonBody (.obj [("name", .str "Ada")])) := by
  refine ⟨by decide, ?_⟩
  exact c5_body_stripping_amended noFs noFs
    [("name", .str "Ada"), ("_path", .str "/x")] (by decide)

/-- Claim C6: GET/DELETE query building — concretely, the arguments
`a = "x"`, `b = null`, `_internal = "y"` yield exactly the query `a=x`; in
general every non-underscore key becomes a query pair, null values are
omitted entirely, and underscore keys are never forwarded. -/
theorem c6_query_omission :
    add_query_params (.obj [("a", .str "x"), ("b", .null), ("_internal", .str "y")]) =
      [("a", "x")] ∧
    ∀ kvs, add_query_params (.obj kvs) = kvs.filterMap query_pair :=
  ⟨rfl, add_query_params_eq⟩

/-- Claim C7: catalog construction is last-write-wins — the lookup map built
by folding `HashMap::insert` over the tool list maps each name to the last
tool in extraction order bearing it (exact, case-sensitive match), while the
ordered list is stored unchanged; concretely two tools named `dup` resolve to
the second while both remain in the list. -/
theorem c7_last_write_wins :
    (∀ ts : List McpTool, (server_catalog ts).tools = ts) ∧
    (∀ (ts : List McpTool) (n : String),
      lookup_tool (server_catalog ts) n = ts.reverse.find? (fun t => t.name == n)) ∧
    lookup_tool (server_catalog [tDup1, tDup2]) "dup" = some tDup2 ∧
    (server_catalog [tDup1, tDup2]).tools = [tDup1, tDup2] := by
  refine ⟨fun ts => rfl, ?_, rfl, rfl⟩
  intro ts n
  have h := build_map_lookup ts [] n
  simpa [lookup_tool, server_catalog, build_tool_map, lookupAssoc] using h

/-- Claim C8, counterexample: in multipart construction a null-valued entry is
NOT skipped — it produces the text form field `("x", "null")`, refuting
"every null-valued entry among them is skipped". -/
theorem c8_counterexample :
    add_multipart_body noFs b64stub (.obj [("_file_upload", .str "AAAA"), ("x", .null)]) =
      .ok (.multipartBody [.filePart [1, 2, 3], .textPart "x" "null"]) ∧
    FormPart.textPart "x" "null" ∈
      [FormPart.filePart [1, 2, 3], FormPart.textPart "x" "null"] :=
  ⟨rfl, by simp⟩

/-- Claim C8 (amended): in multipart construction every remaining top-level
argument key not starting with `_` becomes a plain text form field whose
value is stringified the same way as query parameters except that null is not
skipped: it becomes the text `"null"`. -/
theorem c8_multipart_fields_amended (fr b64 : String → Option (List Nat))
    (kvs : List (String × Json)) (ps : List FormPart)
    (h : multipart_parts fr b64 kvs = .ok ps) :
    text_fields ps = kvs.filterMap text_field_pair :=
  multipart_parts_text_fields fr b64 kvs ps h

/-- Claim C8 witness: the amended theorem at concrete arguments, showing the
null entry yields the `"null"` text field. -/
theorem c8_witness :
    multipart_parts noFs b64stub
        [("_file_upload", Json.num 7), ("n", Json.null), ("a", Json.str "b")] =
      .ok [.textPart "n" "null", .textPart "a" "b"] ∧
    text_fields [.textPart "n" "null", .textPart "a" "b"] = [("n", "null"), ("a", "b")] := by
  refine ⟨rfl, ?_⟩
  exact c8_multipart_fields_amended noFs b64stub
    [("_file_upload", Json.num 7), ("n", Json.null), ("a", Json.str "b")]
    [.textPart "n" "null", .textPart "a" "b"] rfl

/-- Claim C9, counterexample: a string schema carrying the format string
`uuid` (an unrecognized format) converts to a value with no `format` key at
all — the format is dropped, refuting "format passed through verbatim when
present". -/
theorem c9_counterexample :
    convert_schema (.mk ⟨none, none⟩ (.tyString (.unknown "uuid") [])) =
      .ok (.obj [("type", .str "string")]) ∧
    (Json.obj [("type", .str "string")]).getKey? "format" = none :=
  ⟨rfl, rfl⟩

/-- Claim C9 (amended): `title` and `description` are passed through verbatim
on every node; string enums keep only non-null entries (the `enum` key is
absent when none remain); `format` is carried only for recognized format
variants and as the variant's Debug name (e.g. `date-time` becomes
`DateTime`), while unknown format strings are dropped. -/
theorem c9_metadata_passthrough_amended :
    (∀ s : Schema, ∃ v, convert_schema s = .ok v ∧
        v.getKey? "title" = (s.data.title).map Json.str ∧
        v.getKey? "description" = (s.data.description).map Json.str) ∧
    (∀ (d : SchemaData) (fmt : VariantOrUnknownOrEmpty StringFormat)
        (en : List (Option String)),
      ∃ v, convert_schema (.mk d (.tyString fmt en)) = .ok v ∧
        v.getKey? "format" =
          (match fmt with | .item f => some (.str f.debugStr) | _ => none) ∧
        v.getKey? "enum" =
          (if (en.filterMap id).isEmpty then none
           else some (.arr ((en.filterMap id).map Json.str)))) ∧
    (∀ (d : SchemaData) (fmt : VariantOrUnknownOrEmpty NumberFormat),
      ∃ v, convert_schema (.mk d (.tyNumber fmt)) = .ok v ∧
        v.getKey? "format" =
          (match fmt with | .item f => some (.str f.debugStr) | _ => none)) ∧
    (∀ (d : SchemaData) (fmt : VariantOrUnknownOrEmpty IntegerFormat),
      ∃ v, convert_schema (.mk d (.tyInteger fmt)) = .ok v ∧
        v.getKey? "format" =
          (match fmt with | .item f => some (.str f.debugStr) | _ => none)) := by
  refine ⟨?_, ?_, ?_, ?_⟩
  · intro s
    obtain ⟨v, hv, _, ht, hd⟩ := convert_schema_ok s
    exact ⟨v, hv, ht, hd⟩
  · intro d fmt en
    obtain ⟨kvs, hk, _, hfmt, henum, _, _⟩ := convert_kind_string fmt en
    refine ⟨apply_meta d (.obj kvs), by simp [convert_schema, hk], ?_, ?_⟩
    · rw [apply_meta_getKey_other d _ "format" (by simp) (by simp)]
      simpa [Json.getKey?] using hfmt
    · rw [apply_meta_getKey_other d _ "enum" (by simp) (by simp)]
      simpa [Json.getKey?] using henum
  · intro d fmt
    obtain ⟨kvs, hk, _, hfmt, _, _⟩ := convert_kind_number fmt
    refine ⟨apply_meta d (.obj kvs), by simp [convert_schema, hk], ?_⟩
    rw [apply_meta_getKey_other d _ "format" (by simp) (by simp)]
    simpa [Json.getKey?] using hfmt
  · intro d fmt
    obtain ⟨kvs, hk, _, hfmt, _, _⟩ := convert_kind_integer fmt
    refine ⟨apply_meta d (.obj kvs), by simp [convert_schema, hk], ?_⟩
    rw [apply_meta_getKey_other d _ "format" (by simp) (by simp)]
    simpa [Json.getKey?] using hfmt

/-- Claim C10: a POST/PUT/PATCH call whose arguments carry `_file_upload`
with a non-string value builds, without error, a multipart body containing
only the text fields of the other non-reserved keys and no file part — the
non-string upload value is silently ignored. -/
theorem c10_nonstring_upload (fr b64 : String → Option (List Nat))
    (kvs : List (String × Json))
    (hk : (kvs.any fun kv => kv.1 = "_file_upload") = true)
    (hns : ∀ p ∈ kvs, p.1 = "_file_upload" → p.2.asStr = none) :
    add_request_body fr b64 (.obj kvs) =
      .ok (.multipartBody (kvs.filterMap text_only_field)) ∧
    ∀ bs, FormPart.filePart bs ∉ kvs.filterMap text_only_field := by
  constructor
  · simp [add_request_body, Json.asObject, hk, add_multipart_body,
      multipart_parts_nonstring fr b64 kvs hns]
  · intro bs
    exact text_only_no_file kvs bs

/-- Claim C10 witness: the theorem at concrete arguments with a numeric
`_file_upload` value. -/
theorem c10_witness :
    (([("_file_upload", Json.num 5), ("a", Json.str "b")].any
        fun kv => kv.1 = "_file_upload") = true) ∧
    add_request_body noFs noFs (.obj [("_file_upload", Json.num 5), ("a", Json.str "b")]) =
      .ok (.multipartBody [.textPart "a" "b"]) := by
  refine ⟨by decide, ?_⟩
  exact (c10_nonstring_upload noFs noFs [("_file_upload", Json.num 5), ("a", Json.str "b")]
    (by decide) (by decide)).1
